import Mathlib

/-!
Verification development for the N-Body simulator
(`PhysicsVector.h`, `Planet.h` / `Planet.cpp`, `SolarSystem.cpp`).

Modelling conventions:
* `double` values are modelled as exact real numbers (the spec's
  "under exact real arithmetic" reading); `std::vector<double> m_components`
  becomes `List ℝ`.
* Operations that throw (`vector::at`, `setAt`) are modelled with `Option`:
  `none` is the thrown `std::out_of_range`.
* The force law divides by `r²` without a guard; IEEE division by zero yields
  a non-finite value.  The total embedding uses Lean's guarded division for
  the plain definitions, and a `Checked` variant makes that division fallible
  (`none` exactly when the divisor is zero).
* Object identity (`this == &planet`) inside a traversed `std::vector` is the
  element's index, passed explicitly as a `selfIdx : Option ℕ`.
-/

noncomputable section

/-- Source `PhysicsVector<dim>`: the single data member `std::vector<double> m_components`.
The class maintains the invariant that the list has length `dim`; the raw list
is kept so that the repair path (`matchVectorSize`) can be stated. -/
structure PhysicsVector (dim : ℕ) where
  m_components : List ℝ

/-- Source `std::numeric_limits<double>::epsilon()`, which is exactly `2 ^ (-52)`. -/
def dblEpsilon : ℝ := 1 / 2 ^ 52

/-- The default constructor: push `dim` zeros. -/
def PhysicsVector.mkZero (dim : ℕ) : PhysicsVector dim :=
  ⟨List.replicate dim 0⟩

/-- Source `matchVectorSize`: when the component list is too long, `pop_back` until it
has `dim` entries (keeping the first `dim`); when too short, `push_back` zeros
until it has `dim` entries. -/
def PhysicsVector.matchVectorSize (dim : ℕ) (l : List ℝ) : List ℝ :=
  if dim < l.length then l.take dim
  else if l.length < dim then l ++ List.replicate (dim - l.length) 0
  else l

/-- The initializer-list constructor: copy the list, then repair the size if
and only if it mismatches `dim`. -/
def PhysicsVector.fromList (dim : ℕ) (l : List ℝ) : PhysicsVector dim :=
  if l.length ≠ dim then ⟨PhysicsVector.matchVectorSize dim l⟩ else ⟨l⟩

/-- Total projection of one component.  Used to model element accesses that are
provably in range by the size invariant (e.g. `getX` on a `PhysicsVector<3>`);
out of range it gives the junk value `0`, which no theorem relies on. -/
def PhysicsVector.comp {dim : ℕ} (v : PhysicsVector dim) (i : ℕ) : ℝ :=
  v.m_components.getD i 0

/-- Source `getAt` (via `vector::at`): throws `std::out_of_range` unless the index is
in `[0, size)`.  A negative `int` argument converts to a huge `size_t`, so it
also throws; hence the guard condenses to `0 ≤ i ∧ i < size`. -/
def PhysicsVector.getAt {dim : ℕ} (v : PhysicsVector dim) (i : ℤ) : Option ℝ :=
  if 0 ≤ i ∧ i < v.m_components.length then some (v.m_components.getD i.toNat 0)
  else none

/-- Source `at`, an alias of `getAt` mirroring the underlying `std::vector`
(spelled `atEntry` because `at` is reserved in Lean). -/
def PhysicsVector.atEntry {dim : ℕ} (v : PhysicsVector dim) (i : ℤ) : Option ℝ :=
  v.getAt i

/-- Source `getX`, i.e. `getAt(0)`. -/
def PhysicsVector.getX {dim : ℕ} (v : PhysicsVector dim) : Option ℝ := v.getAt 0

/-- Source `getY`, i.e. `getAt(1)`. -/
def PhysicsVector.getY {dim : ℕ} (v : PhysicsVector dim) : Option ℝ := v.getAt 1

/-- Source `getZ`, i.e. `getAt(2)`. -/
def PhysicsVector.getZ {dim : ℕ} (v : PhysicsVector dim) : Option ℝ := v.getAt 2

/-- Source `setAt`: throws when `indexIn > dim - 1`; the comparison is performed in
unsigned arithmetic, so a negative index also throws.  Otherwise it writes the
component in place. -/
def PhysicsVector.setAt {dim : ℕ} (v : PhysicsVector dim) (i : ℤ) (x : ℝ) :
    Option (PhysicsVector dim) :=
  if i < 0 ∨ ((dim : ℤ) - 1) < i then none
  else some ⟨v.m_components.set i.toNat x⟩

/-- Source `setX`, i.e. `setAt(0, XIn)`. -/
def PhysicsVector.setX {dim : ℕ} (v : PhysicsVector dim) (x : ℝ) :
    Option (PhysicsVector dim) := v.setAt 0 x

/-- Source `setY`, i.e. `setAt(1, YIn)`. -/
def PhysicsVector.setY {dim : ℕ} (v : PhysicsVector dim) (x : ℝ) :
    Option (PhysicsVector dim) := v.setAt 1 x

/-- Source `setZ`, i.e. `setAt(2, ZIn)`. -/
def PhysicsVector.setZ {dim : ℕ} (v : PhysicsVector dim) (x : ℝ) :
    Option (PhysicsVector dim) := v.setAt 2 x

/-- Source `operator+`: clone, then `+=` each of the `dim` components.  Under the
size invariant the indexed loop over `[0, dim)` is a `zipWith`. -/
def PhysicsVector.add {dim : ℕ} (v w : PhysicsVector dim) : PhysicsVector dim :=
  ⟨List.zipWith (fun a b => a + b) v.m_components w.m_components⟩

/-- Source `operator-` (binary): clone, then `-=` each of the `dim` components. -/
def PhysicsVector.sub {dim : ℕ} (v w : PhysicsVector dim) : PhysicsVector dim :=
  ⟨List.zipWith (fun a b => a - b) v.m_components w.m_components⟩

/-- Source `lengthSquared`: accumulate `pow(d, 2)` over the components. -/
def PhysicsVector.lengthSquared {dim : ℕ} (v : PhysicsVector dim) : ℝ :=
  v.m_components.foldl (fun acc d => acc + d ^ 2) 0

/-- Source `length`: the square root of `lengthSquared`. -/
def PhysicsVector.length {dim : ℕ} (v : PhysicsVector dim) : ℝ :=
  Real.sqrt v.lengthSquared

/-- Source `magnitude`, an alias of `length`. -/
def PhysicsVector.magnitude {dim : ℕ} (v : PhysicsVector dim) : ℝ :=
  v.length

/-- Source `scaleVector`: multiply every component by `inValue` in place. -/
def PhysicsVector.scaleVector {dim : ℕ} (v : PhysicsVector dim) (inValue : ℝ) :
    PhysicsVector dim :=
  ⟨v.m_components.map (fun d => d * inValue)⟩

/-- Source `scaledBy`: clone, then `scaleVector`. -/
def PhysicsVector.scaledBy {dim : ℕ} (v : PhysicsVector dim) (inValue : ℝ) :
    PhysicsVector dim :=
  v.scaleVector inValue

/-- Source `getUnitVector`: the default-constructed all-zero vector when the magnitude
is at most machine epsilon, otherwise the clone scaled by `1 / magnitude`. -/
def PhysicsVector.getUnitVector {dim : ℕ} (v : PhysicsVector dim) :
    PhysicsVector dim :=
  if v.magnitude ≤ dblEpsilon then PhysicsVector.mkZero dim
  else v.scaleVector (1 / v.magnitude)

/-- Source `Planet`: name, mass, and the three state vectors. -/
structure Planet where
  m_name : String
  m_mass : ℝ
  m_position : PhysicsVector 3
  m_velocity : PhysicsVector 3
  m_acceleration : PhysicsVector 3

/-- Source `static constexpr double G{ 6.67408e-11 }`, as an exact decimal. -/
def Planet.G : ℝ := 667408 / 10 ^ 16

/-- Source `Planet::calcAcceleration`: the acceleration this planet feels from
`inPlanet`, `unitVector(pos - otherPos)` scaled by `-(G * otherMass) / r²`
with `r` the separation. -/
def Planet.calcAcceleration (self inPlanet : Planet) : PhysicsVector 3 :=
  let r := (self.m_position.sub inPlanet.m_position).magnitude
  let outVector := (self.m_position.sub inPlanet.m_position).getUnitVector
  outVector.scaleVector (-(Planet.G * inPlanet.m_mass) / r ^ 2)

/-- Source `calcAcceleration` with its unguarded force-law division made fallible:
IEEE division by a zero `r²` yields a non-finite value, modelled as `none`. -/
def Planet.calcAccelerationChecked (self inPlanet : Planet) :
    Option (PhysicsVector 3) :=
  let r := (self.m_position.sub inPlanet.m_position).magnitude
  if r ^ 2 = 0 then none else some (self.calcAcceleration inPlanet)

/-- The accumulation loop of `updateAccelerationEuler`: start from `{0,0,0}`,
`+=` the pairwise acceleration from every traversed planet, skipping the one
whose address equals `this` — i.e. the element at index `selfIdx`, when `this`
is an element of the traversed vector. -/
def Planet.sumAccelerations (self : Planet) (inPlanets : List Planet)
    (selfIdx : Option ℕ) : PhysicsVector 3 :=
  inPlanets.enum.foldl
    (fun acc x => if selfIdx = some x.1 then acc
                  else acc.add (self.calcAcceleration x.2))
    (PhysicsVector.fromList 3 [0, 0, 0])

/-- Source `Planet::updateAccelerationEuler`: store the accumulated sum as the
planet's acceleration. -/
def Planet.updateAccelerationEuler (self : Planet) (inPlanets : List Planet)
    (selfIdx : Option ℕ) : Planet :=
  { self with m_acceleration := self.sumAccelerations inPlanets selfIdx }

/-- Source `Planet::updatePositionEuler`: `position ← position + velocity * dt`,
computed component by component (the `getX`/`getY`/`getZ` reads are in range
by the size invariant) and written back through the `{newX,newY,newZ}`
initializer-list assignment. -/
def Planet.updatePositionEuler (self : Planet) (timeStep : ℝ) : Planet :=
  let newX := self.m_position.comp 0 + self.m_velocity.comp 0 * timeStep
  let newY := self.m_position.comp 1 + self.m_velocity.comp 1 * timeStep
  let newZ := self.m_position.comp 2 + self.m_velocity.comp 2 * timeStep
  { self with m_position := PhysicsVector.fromList 3 [newX, newY, newZ] }

/-- Source `Planet::updateVelocityEuler`: `velocity ← velocity + acceleration * dt`. -/
def Planet.updateVelocityEuler (self : Planet) (timeStep : ℝ) : Planet :=
  let newX := self.m_velocity.comp 0 + self.m_acceleration.comp 0 * timeStep
  let newY := self.m_velocity.comp 1 + self.m_acceleration.comp 1 * timeStep
  let newZ := self.m_velocity.comp 2 + self.m_acceleration.comp 2 * timeStep
  { self with m_velocity := PhysicsVector.fromList 3 [newX, newY, newZ] }

/-- Source `Planet::updateEuler`: accumulate acceleration, then advance position,
then advance velocity. -/
def Planet.updateEuler (self : Planet) (inPlanets : List Planet)
    (selfIdx : Option ℕ) (timeStep : ℝ) : Planet :=
  ((self.updateAccelerationEuler inPlanets selfIdx).updatePositionEuler
      timeStep).updateVelocityEuler timeStep

/-- Source `Planet::updateEulerCromer`: accumulate acceleration, then advance
velocity, then advance position. -/
def Planet.updateEulerCromer (self : Planet) (inPlanets : List Planet)
    (selfIdx : Option ℕ) (timeStep : ℝ) : Planet :=
  ((self.updateAccelerationEuler inPlanets selfIdx).updateVelocityEuler
      timeStep).updatePositionEuler timeStep

/-- The mass accumulator of `centreOfMass` (`totalMass += planet.getMass()`). -/
def totalMass (Planets : List Planet) : ℝ :=
  Planets.foldl (fun acc p => acc + p.m_mass) 0

/-- One coordinate accumulator of `centreOfMass`
(`com_k += planet.getPosition().get_k() * planet.getMass()`).  The source
accumulates all four sums in a single pass; the separate folds compute the
same four values. -/
def comSum (k : ℕ) (Planets : List Planet) : ℝ :=
  Planets.foldl (fun acc p => acc + p.m_position.comp k * p.m_mass) 0

/-- Source `centreOfMass`: the component-wise mass-weighted average
`Σ(mass_i * position_i) / Σ(mass_i)`. -/
def centreOfMass (Planets : List Planet) : PhysicsVector 3 :=
  PhysicsVector.fromList 3
    [comSum 0 Planets / totalMass Planets,
     comSum 1 Planets / totalMass Planets,
     comSum 2 Planets / totalMass Planets]

/-- The recentring step of the main loop: subtract `centreOfMass(Planets)`
from every planet's position. -/
def recentrePlanets (Planets : List Planet) : List Planet :=
  let CoM := centreOfMass Planets
  Planets.map (fun p => { p with m_position := p.m_position.sub CoM })

/-- A placeholder planet for the (never taken) out-of-range branch of the
indexed loop model; its fields are the `Planet` member initializers. -/
def dummyPlanet : Planet :=
  ⟨"Unnamed Planet", 0, PhysicsVector.mkZero 3, PhysicsVector.mkZero 3,
    PhysicsVector.mkZero 3⟩

/-- The per-step body loop of `main`
(`for (auto& planet : Planets) planet.updateEulerCromer(Planets, timeStep)`):
an in-place, in-order update.  The element at index `i` is replaced by its
Euler-Cromer update computed against the current — partially updated — vector,
with `this` being the element at index `i`. -/
def stepLoop (timeStep : ℝ) : ℕ → ℕ → List Planet → List Planet
  | 0, _, ps => ps
  | fuel + 1, i, ps =>
      stepLoop timeStep fuel (i + 1)
        (ps.set i ((ps.getD i dummyPlanet).updateEulerCromer ps (some i)
          timeStep))

/-- One whole-collection Euler-Cromer step, exactly as the main loop performs
it: traverse the vector once, updating each element in place. -/
def stepEulerCromerAll (Planets : List Planet) (timeStep : ℝ) : List Planet :=
  stepLoop timeStep Planets.length 0 Planets

/-- Second definition for the refinement comparison, following the spec's
words rather than the source: every body's acceleration for this step sees
every other body's position as it was before any body was advanced, i.e. each
body is updated against the unmodified pre-step snapshot. -/
def stepEulerCromerSnapshot (Planets : List Planet) (timeStep : ℝ) :
    List Planet :=
  Planets.enum.map (fun x => x.2.updateEulerCromer Planets (some x.1) timeStep)

/-- Sum of a list of 3-vectors, accumulated from `{0,0,0}` with `operator+=`. -/
def vecSum (l : List (PhysicsVector 3)) : PhysicsVector 3 :=
  l.foldl PhysicsVector.add (PhysicsVector.fromList 3 [0, 0, 0])

/-- Concrete body used by evaluation checks. -/
def wSelf : Planet :=
  ⟨"a", 1, ⟨[1, 0, 0]⟩, PhysicsVector.mkZero 3, PhysicsVector.mkZero 3⟩

/-- Concrete body with the same position as `wSelf` but other name and mass. -/
def wSelf2 : Planet :=
  ⟨"c", 9, ⟨[1, 0, 0]⟩, PhysicsVector.mkZero 3, PhysicsVector.mkZero 3⟩

/-- Concrete body used by evaluation checks. -/
def wOther : Planet :=
  ⟨"b", 2, ⟨[4, 0, 0]⟩, PhysicsVector.mkZero 3, PhysicsVector.mkZero 3⟩

/-- Concrete body with the position and mass of `wOther`, other name. -/
def wOther2 : Planet :=
  ⟨"d", 2, ⟨[4, 0, 0]⟩, PhysicsVector.mkZero 3, PhysicsVector.mkZero 3⟩

/-- A mass whose product with `G` is exactly 1, keeping the concrete
integration arithmetic short. -/
def ceMass : ℝ := 10 ^ 16 / 667408

/-- Concrete body at the origin, at rest, of mass `ceMass`. -/
def ceBody0 : Planet := ⟨"p", ceMass, ⟨[0, 0, 0]⟩, ⟨[0, 0, 0]⟩, ⟨[0, 0, 0]⟩⟩

/-- Concrete body at `x = 2`, at rest, of mass `ceMass`. -/
def ceBody1 : Planet := ⟨"q", ceMass, ⟨[2, 0, 0]⟩, ⟨[0, 0, 0]⟩, ⟨[0, 0, 0]⟩⟩

/-- Concrete body used by the coincident-position checks. -/
def wCoinA : Planet :=
  ⟨"a", 5, ⟨[1, 2, 3]⟩, PhysicsVector.mkZero 3, PhysicsVector.mkZero 3⟩

/-- Concrete body at the same position as `wCoinA`. -/
def wCoinB : Planet :=
  ⟨"b", 7, ⟨[1, 2, 3]⟩, PhysicsVector.mkZero 3, PhysicsVector.mkZero 3⟩

/-! ## Helper lemmas -/

lemma fromList_of_length {dim : ℕ} {l : List ℝ} (h : l.length = dim) :
    PhysicsVector.fromList dim l = ⟨l⟩ := by
  simp [PhysicsVector.fromList, h]

lemma foldl_sq_of_self_sub (l : List ℝ) (c : ℝ) :
    (l.map (fun x => x - x)).foldl (fun acc d => acc + d ^ 2) c = c := by
  induction l generalizing c with
  | nil => rfl
  | cons a l ih =>
      show (l.map (fun x => x - x)).foldl (fun acc d => acc + d ^ 2)
        (c + (a - a) ^ 2) = c
      rw [show c + (a - a) ^ 2 = c by ring]
      exact ih c

lemma magnitude_sub_self {dim : ℕ} (v w : PhysicsVector dim)
    (h : v.m_components = w.m_components) : (v.sub w).magnitude = 0 := by
  unfold PhysicsVector.magnitude PhysicsVector.length PhysicsVector.lengthSquared
    PhysicsVector.sub
  rw [h, List.zipWith_same, foldl_sq_of_self_sub, Real.sqrt_zero]

lemma length_add {dim : ℕ} (v w : PhysicsVector dim)
    (hv : v.m_components.length = dim) (hw : w.m_components.length = dim) :
    (v.add w).m_components.length = dim := by
  simp [PhysicsVector.add, hv, hw]

lemma length_sub {dim : ℕ} (v w : PhysicsVector dim)
    (hv : v.m_components.length = dim) (hw : w.m_components.length = dim) :
    (v.sub w).m_components.length = dim := by
  simp [PhysicsVector.sub, hv, hw]

lemma length_scaleVector {dim : ℕ} (v : PhysicsVector dim) (k : ℝ) :
    (v.scaleVector k).m_components.length = v.m_components.length := by
  simp [PhysicsVector.scaleVector]

lemma length_mkZero (dim : ℕ) :
    (PhysicsVector.mkZero dim).m_components.length = dim := by
  simp [PhysicsVector.mkZero]

lemma length_getUnitVector {dim : ℕ} (v : PhysicsVector dim)
    (hv : v.m_components.length = dim) :
    v.getUnitVector.m_components.length = dim := by
  unfold PhysicsVector.getUnitVector
  split
  · exact length_mkZero dim
  · rw [length_scaleVector, hv]

lemma length_calcAcceleration (p q : Planet)
    (hp : p.m_position.m_components.length = 3)
    (hq : q.m_position.m_components.length = 3) :
    (p.calcAcceleration q).m_components.length = 3 := by
  unfold Planet.calcAcceleration
  rw [length_scaleVector, length_getUnitVector _ (length_sub _ _ hp hq)]

lemma length_sumAccelerations_aux (self : Planet) (selfIdx : Option ℕ)
    (hp : self.m_position.m_components.length = 3) :
    ∀ (l : List (ℕ × Planet)) (acc : PhysicsVector 3),
      (∀ x ∈ l, x.2.m_position.m_components.length = 3) →
      acc.m_components.length = 3 →
      (l.foldl (fun acc x => if selfIdx = some x.1 then acc
          else acc.add (self.calcAcceleration x.2)) acc).m_components.length
        = 3 := by
  intro l
  induction l with
  | nil => intro acc _ hacc; exact hacc
  | cons hd tl ih =>
      intro acc hl hacc
      rw [List.foldl_cons]
      refine ih _ (fun x hx => hl x (List.mem_cons_of_mem hd hx)) ?_
      split
      · exact hacc
      · exact length_add _ _ hacc
          (length_calcAcceleration _ _ hp (hl hd (List.mem_cons_self hd tl)))

lemma length_sumAccelerations (self : Planet) (ps : List Planet)
    (selfIdx : Option ℕ) (hp : self.m_position.m_components.length = 3)
    (hps : ∀ p ∈ ps, p.m_position.m_components.length = 3) :
    (self.sumAccelerations ps selfIdx).m_components.length = 3 := by
  unfold Planet.sumAccelerations
  refine length_sumAccelerations_aux self selfIdx hp _ _ ?_ ?_
  · intro x hx
    exact hps x.2 (List.snd_mem_of_mem_enum hx)
  · rw [fromList_of_length (by simp)]
    simp

lemma foldl_skip_eq_filter (self : Planet) (i : ℕ) :
    ∀ (l : List (ℕ × Planet)) (acc : PhysicsVector 3),
      l.foldl (fun acc x => if (some i : Option ℕ) = some x.1 then acc
          else acc.add (self.calcAcceleration x.2)) acc
        = ((l.filter (fun x => x.1 ≠ i)).map
            (fun x => self.calcAcceleration x.2)).foldl PhysicsVector.add acc := by
  intro l
  induction l with
  | nil => intro acc; rfl
  | cons hd tl ih =>
      intro acc
      by_cases hhd : hd.1 = i
      · rw [List.foldl_cons, if_pos (by rw [hhd]),
          List.filter_cons_of_neg (by simp [hhd])]
        exact ih acc
      · rw [List.foldl_cons, if_neg (by simp [Ne.symm hhd]),
          List.filter_cons_of_pos (by simp [hhd]), List.map_cons,
          List.foldl_cons]
        exact ih _

lemma foldl_add_eq_sum (f : Planet → ℝ) :
    ∀ (ps : List Planet) (c : ℝ),
      ps.foldl (fun acc p => acc + f p) c = c + (ps.map f).sum := by
  intro ps
  induction ps with
  | nil => intro c; simp
  | cons hd tl ih =>
      intro c
      rw [List.foldl_cons, ih, List.map_cons, List.sum_cons]
      ring

lemma sum_map_sub (f g : Planet → ℝ) :
    ∀ ps : List Planet,
      (ps.map (fun p => f p - g p)).sum = (ps.map f).sum - (ps.map g).sum := by
  intro ps
  induction ps with
  | nil => simp
  | cons hd tl ih => simp [ih]; ring

lemma sum_map_const_mul (c : ℝ) (g : Planet → ℝ) :
    ∀ ps : List Planet,
      (ps.map (fun p => c * g p)).sum = c * (ps.map g).sum := by
  intro ps
  induction ps with
  | nil => simp
  | cons hd tl ih => simp [ih]; ring

lemma stepLoop_succ (dt : ℝ) (n i : ℕ) (ps : List Planet) :
    stepLoop dt (n + 1) i ps
      = stepLoop dt n (i + 1)
          (ps.set i ((ps.getD i dummyPlanet).updateEulerCromer ps (some i)
            dt)) := rfl

lemma stepLoop_length (dt : ℝ) :
    ∀ (fuel i : ℕ) (ps : List Planet),
      (stepLoop dt fuel i ps).length = ps.length := by
  intro fuel
  induction fuel with
  | zero => intro i ps; rfl
  | succ n ih =>
      intro i ps
      rw [stepLoop_succ, ih, List.length_set]

lemma stepLoop_add (dt : ℝ) :
    ∀ (a b i : ℕ) (ps : List Planet),
      stepLoop dt (a + b) i ps = stepLoop dt b (i + a) (stepLoop dt a i ps) := by
  intro a
  induction a with
  | zero =>
      intro b i ps
      rw [Nat.zero_add, Nat.add_zero]
      rfl
  | succ n ih =>
      intro b i ps
      rw [show n + 1 + b = n + b + 1 from by omega, stepLoop_succ, ih,
        stepLoop_succ dt n i ps, show i + 1 + n = i + (n + 1) from by omega]

lemma stepLoop_frozen (dt : ℝ) :
    ∀ (fuel i : ℕ) (ps : List Planet) (j : ℕ), j < i →
      (stepLoop dt fuel i ps)[j]? = ps[j]? := by
  intro fuel
  induction fuel with
  | zero => intro i ps j _; rfl
  | succ n ih =>
      intro i ps j h
      rw [stepLoop_succ, ih _ _ _ (by omega),
        List.getElem?_set_ne (by omega)]

lemma stepLoop_two (dt : ℝ) (p q : Planet) :
    stepEulerCromerAll [p, q] dt
      = [p.updateEulerCromer [p, q] (some 0) dt,
         q.updateEulerCromer [p.updateEulerCromer [p, q] (some 0) dt, q]
           (some 1) dt] := rfl

lemma snapshot_two (dt : ℝ) (p q : Planet) :
    stepEulerCromerSnapshot [p, q] dt
      = [p.updateEulerCromer [p, q] (some 0) dt,
         q.updateEulerCromer [p, q] (some 1) dt] := rfl

lemma G_mul_ceMass : Planet.G * ceMass = 1 := by
  unfold Planet.G ceMass
  norm_num

lemma calcAcceleration_collinear (p q : Planet) (a b : ℝ)
    (hp : p.m_position = ⟨[a, 0, 0]⟩) (hq : q.m_position = ⟨[b, 0, 0]⟩)
    (hab : dblEpsilon < |a - b|) :
    p.calcAcceleration q
      = ⟨[(a - b) * (1 / |a - b|)
            * (-(Planet.G * q.m_mass) / |a - b| ^ 2), 0, 0]⟩ := by
  unfold Planet.calcAcceleration
  rw [hp, hq]
  have hsub : (⟨[a, 0, 0]⟩ : PhysicsVector 3).sub ⟨[b, 0, 0]⟩
      = ⟨[a - b, 0, 0]⟩ := by
    simp [PhysicsVector.sub]
  rw [hsub]
  have hmag : (⟨[a - b, 0, 0]⟩ : PhysicsVector 3).magnitude = |a - b| := by
    unfold PhysicsVector.magnitude PhysicsVector.length PhysicsVector.lengthSquared
    show Real.sqrt (0 + (a - b) ^ 2 + 0 ^ 2 + 0 ^ 2) = |a - b|
    rw [show (0 : ℝ) + (a - b) ^ 2 + 0 ^ 2 + 0 ^ 2 = (a - b) ^ 2 by ring,
      Real.sqrt_sq_eq_abs]
  have hunit : (⟨[a - b, 0, 0]⟩ : PhysicsVector 3).getUnitVector
      = ⟨[(a - b) * (1 / |a - b|), 0, 0]⟩ := by
    unfold PhysicsVector.getUnitVector
    rw [hmag, if_neg (not_le.mpr hab)]
    simp [PhysicsVector.scaleVector, hmag]
  rw [hmag, hunit]
  simp [PhysicsVector.scaleVector]

lemma ce_calc01 : ceBody0.calcAcceleration ceBody1 = ⟨[1 / 4, 0, 0]⟩ := by
  rw [calcAcceleration_collinear ceBody0 ceBody1 0 2 rfl rfl
    (by rw [show |(0 : ℝ) - 2| = 2 by rw [abs_of_nonpos] <;> norm_num]
        unfold dblEpsilon
        norm_num)]
  rw [show |(0 : ℝ) - 2| = 2 by rw [abs_of_nonpos] <;> norm_num]
  show (⟨[_, 0, 0]⟩ : PhysicsVector 3) = _
  rw [show ceBody1.m_mass = ceMass from rfl, PhysicsVector.mk.injEq]
  rw [show (0 : ℝ) - 2 = -2 by norm_num, G_mul_ceMass]
  norm_num

lemma ce_calc_1u0 :
    ceBody1.calcAcceleration
        ⟨"p", ceMass, ⟨[1 / 4, 0, 0]⟩, ⟨[1 / 4, 0, 0]⟩, ⟨[1 / 4, 0, 0]⟩⟩
      = ⟨[-(16 / 49), 0, 0]⟩ := by
  rw [calcAcceleration_collinear ceBody1 _ 2 (1 / 4) rfl rfl
    (by rw [show |(2 : ℝ) - 1 / 4| = 7 / 4 by rw [abs_of_pos] <;> norm_num]
        unfold dblEpsilon
        norm_num)]
  rw [show |(2 : ℝ) - 1 / 4| = 7 / 4 by rw [abs_of_pos] <;> norm_num]
  rw [PhysicsVector.mk.injEq,
    show (⟨"p", ceMass, ⟨[1 / 4, 0, 0]⟩, ⟨[1 / 4, 0, 0]⟩,
      ⟨[1 / 4, 0, 0]⟩⟩ : Planet).m_mass = ceMass from rfl, G_mul_ceMass]
  norm_num

lemma ce_calc10 : ceBody1.calcAcceleration ceBody0 = ⟨[-(1 / 4), 0, 0]⟩ := by
  rw [calcAcceleration_collinear ceBody1 ceBody0 2 0 rfl rfl
    (by rw [show |(2 : ℝ) - 0| = 2 by rw [abs_of_pos] <;> norm_num]
        unfold dblEpsilon
        norm_num)]
  rw [show |(2 : ℝ) - 0| = 2 by rw [abs_of_pos] <;> norm_num]
  rw [PhysicsVector.mk.injEq, show ceBody0.m_mass = ceMass from rfl,
    G_mul_ceMass]
  norm_num

lemma ce_sum0 :
    ceBody0.sumAccelerations [ceBody0, ceBody1] (some 0) = ⟨[1 / 4, 0, 0]⟩ := by
  show (PhysicsVector.fromList 3 [0, 0, 0]).add
      (ceBody0.calcAcceleration ceBody1) = _
  rw [ce_calc01, fromList_of_length (by simp)]
  simp [PhysicsVector.add]

lemma ce_u0 :
    ceBody0.updateEulerCromer [ceBody0, ceBody1] (some 0) 1
      = ⟨"p", ceMass, ⟨[1 / 4, 0, 0]⟩, ⟨[1 / 4, 0, 0]⟩, ⟨[1 / 4, 0, 0]⟩⟩ := by
  unfold Planet.updateEulerCromer Planet.updateAccelerationEuler
  rw [ce_sum0]
  unfold Planet.updateVelocityEuler Planet.updatePositionEuler
  simp [ceBody0, PhysicsVector.comp, PhysicsVector.fromList]

lemma ce_sum1 :
    ceBody1.sumAccelerations
        [⟨"p", ceMass, ⟨[1 / 4, 0, 0]⟩, ⟨[1 / 4, 0, 0]⟩, ⟨[1 / 4, 0, 0]⟩⟩,
          ceBody1] (some 1)
      = ⟨[-(16 / 49), 0, 0]⟩ := by
  show (PhysicsVector.fromList 3 [0, 0, 0]).add
      (ceBody1.calcAcceleration
        ⟨"p", ceMass, ⟨[1 / 4, 0, 0]⟩, ⟨[1 / 4, 0, 0]⟩, ⟨[1 / 4, 0, 0]⟩⟩) = _
  rw [ce_calc_1u0, fromList_of_length (by simp)]
  simp [PhysicsVector.add]

lemma ce_u1 :
    ceBody1.updateEulerCromer
        [⟨"p", ceMass, ⟨[1 / 4, 0, 0]⟩, ⟨[1 / 4, 0, 0]⟩, ⟨[1 / 4, 0, 0]⟩⟩,
          ceBody1] (some 1) 1
      = ⟨"q", ceMass, ⟨[82 / 49, 0, 0]⟩, ⟨[-(16 / 49), 0, 0]⟩,
          ⟨[-(16 / 49), 0, 0]⟩⟩ := by
  unfold Planet.updateEulerCromer Planet.updateAccelerationEuler
  rw [ce_sum1]
  unfold Planet.updateVelocityEuler Planet.updatePositionEuler
  simp [ceBody1, PhysicsVector.comp, PhysicsVector.fromList]
  norm_num

lemma ce_snap1 :
    ceBody1.updateEulerCromer [ceBody0, ceBody1] (some 1) 1
      = ⟨"q", ceMass, ⟨[7 / 4, 0, 0]⟩, ⟨[-(1 / 4), 0, 0]⟩,
          ⟨[-(1 / 4), 0, 0]⟩⟩ := by
  unfold Planet.updateEulerCromer Planet.updateAccelerationEuler
  rw [show ceBody1.sumAccelerations [ceBody0, ceBody1] (some 1)
      = ⟨[-(1 / 4), 0, 0]⟩ by
    show (PhysicsVector.fromList 3 [0, 0, 0]).add
        (ceBody1.calcAcceleration ceBody0) = _
    rw [ce_calc10, fromList_of_length (by simp)]
    simp [PhysicsVector.add]]
  unfold Planet.updateVelocityEuler Planet.updatePositionEuler
  simp [ceBody1, PhysicsVector.comp, PhysicsVector.fromList]
  norm_num

/-! ## Claim theorems -/

/-- C3: `calcAcceleration` returns exactly
`unitVector(selfPos - otherPos)` scaled by `-(G * otherMass) / r²` with
`r = |selfPos - otherPos|` and `G` the fixed constant `6.67408e-11`; the
result depends only on the two bodies' masses and positions (here: on the two
positions and the other body's mass). -/
theorem calcAcceleration_formula (p q p' q' : Planet)
    (h1 : p.m_position = p'.m_position) (h2 : q.m_position = q'.m_position)
    (h3 : q.m_mass = q'.m_mass) :
    p.calcAcceleration q
        = ((p.m_position.sub q.m_position).getUnitVector).scaledBy
            (-(Planet.G * q.m_mass)
              / ((p.m_position.sub q.m_position).magnitude) ^ 2) ∧
    Planet.G = 667408 / 10 ^ 16 ∧
    p.calcAcceleration q = p'.calcAcceleration q' := by
  refine ⟨rfl, rfl, ?_⟩
  unfold Planet.calcAcceleration
  rw [h1, h2, h3]

/-- Witness for C3 at a concrete pair of bodies. -/
theorem calcAcceleration_formula_witness :
    wSelf.m_position = wSelf2.m_position ∧
    wOther.m_position = wOther2.m_position ∧
    wOther.m_mass = wOther2.m_mass ∧
    wSelf.calcAcceleration wOther = wSelf2.calcAcceleration wOther2 :=
  ⟨rfl, rfl, rfl,
    (calcAcceleration_formula wSelf wOther wSelf2 wOther2 rfl rfl rfl).2.2⟩

/-- C10: `updateAccelerationEuler` modifies only the acceleration field of the
body: name, mass, position and velocity are returned unchanged (the traversed
collection is taken by const reference / by value in the embedding, and
`calcAcceleration` is a pure function of its two arguments). -/
theorem updateAccelerationEuler_frame (self : Planet) (inPlanets : List Planet)
    (selfIdx : Option ℕ) :
    (self.updateAccelerationEuler inPlanets selfIdx).m_name = self.m_name ∧
    (self.updateAccelerationEuler inPlanets selfIdx).m_mass = self.m_mass ∧
    (self.updateAccelerationEuler inPlanets selfIdx).m_position
      = self.m_position ∧
    (self.updateAccelerationEuler inPlanets selfIdx).m_velocity
      = self.m_velocity ∧
    self.updateAccelerationEuler inPlanets selfIdx
      = { self with m_acceleration := self.sumAccelerations inPlanets selfIdx } :=
  ⟨rfl, rfl, rfl, rfl, rfl⟩

/-- C7: list construction repairs a length mismatch before the vector is
observable: the result always has exactly `dim` components, excess trailing
components are truncated from the end, and missing components are zero-padded
at the end. -/
theorem fromList_pad_truncate (dim : ℕ) (l : List ℝ) :
    (PhysicsVector.fromList dim l).m_components.length = dim ∧
    (dim ≤ l.length →
      (PhysicsVector.fromList dim l).m_components = l.take dim) ∧
    (l.length ≤ dim →
      (PhysicsVector.fromList dim l).m_components
        = l ++ List.replicate (dim - l.length) 0) := by
  by_cases h : l.length = dim
  · rw [fromList_of_length h]
    subst h
    refine ⟨rfl, fun _ => (List.take_length l).symm, fun _ => ?_⟩
    simp
  · unfold PhysicsVector.fromList PhysicsVector.matchVectorSize
    rw [if_pos h]
    rcases Nat.lt_or_ge dim l.length with hlt | hge
    · rw [if_pos hlt]
      refine ⟨?_, fun _ => rfl, fun hc => absurd hc (by omega)⟩
      simp [List.length_take]
      omega
    · rw [if_neg (by omega), if_pos (by omega)]
      refine ⟨?_, fun hc => absurd hc (by omega), fun _ => rfl⟩
      simp [List.length_append, List.length_replicate]
      omega

/-- Witness for C7: a 3-vector from a 5-element list keeps the first three
elements, and one from `{5}` is zero-padded to `{5, 0, 0}`. -/
theorem fromList_pad_truncate_witness :
    (3 ≤ ([1, 2, 3, 4, 5] : List ℝ).length ∧
      (PhysicsVector.fromList 3 [1, 2, 3, 4, 5]).m_components
        = ([1, 2, 3, 4, 5] : List ℝ).take 3) ∧
    (([5] : List ℝ).length ≤ 3 ∧
      (PhysicsVector.fromList 3 [5]).m_components
        = ([5] : List ℝ) ++ List.replicate (3 - ([5] : List ℝ).length) 0) :=
  ⟨⟨by norm_num, (fromList_pad_truncate 3 [1, 2, 3, 4, 5]).2.1 (by norm_num)⟩,
    ⟨by norm_num, (fromList_pad_truncate 3 [5]).2.2 (by norm_num)⟩⟩

/-- C8: `getUnitVector` returns the all-zero vector of the same dimension when
the magnitude is at most machine epsilon, and otherwise the vector scaled by
`1 / magnitude`; the division branch is only taken when the magnitude exceeds
machine epsilon. -/
theorem getUnitVector_guard (dim : ℕ) (v : PhysicsVector dim) :
    (v.magnitude ≤ dblEpsilon → v.getUnitVector = PhysicsVector.mkZero dim) ∧
    (dblEpsilon < v.magnitude →
      v.getUnitVector = v.scaledBy (1 / v.magnitude)) := by
  constructor
  · intro h
    simp [PhysicsVector.getUnitVector, h]
  · intro h
    simp [PhysicsVector.getUnitVector, PhysicsVector.scaledBy, not_le.mpr h]

/-- Witness for C8: the zero vector takes the guarded branch, and `(2)` (of
dimension 1) takes the scaling branch. -/
theorem getUnitVector_guard_witness :
    (PhysicsVector.magnitude (PhysicsVector.mkZero 1) ≤ dblEpsilon ∧
      PhysicsVector.getUnitVector (PhysicsVector.mkZero 1)
        = PhysicsVector.mkZero 1) ∧
    (dblEpsilon < PhysicsVector.magnitude (⟨[2]⟩ : PhysicsVector 1) ∧
      PhysicsVector.getUnitVector (⟨[2]⟩ : PhysicsVector 1)
        = PhysicsVector.scaledBy (⟨[2]⟩ : PhysicsVector 1)
            (1 / PhysicsVector.magnitude (⟨[2]⟩ : PhysicsVector 1))) := by
  have hm0 : PhysicsVector.magnitude (PhysicsVector.mkZero 1) = 0 := by
    simp [PhysicsVector.magnitude, PhysicsVector.length,
      PhysicsVector.lengthSquared, PhysicsVector.mkZero]
  have hm2 : PhysicsVector.magnitude (⟨[2]⟩ : PhysicsVector 1) = 2 := by
    show Real.sqrt (List.foldl (fun acc d => acc + d ^ 2) 0 [2]) = 2
    rw [show List.foldl (fun acc d => acc + d ^ 2) (0 : ℝ) [2] = 2 ^ 2 by
      norm_num]
    exact Real.sqrt_sq (by norm_num)
  have h0 : PhysicsVector.magnitude (PhysicsVector.mkZero 1) ≤ dblEpsilon := by
    rw [hm0]; unfold dblEpsilon; positivity
  have h2 : dblEpsilon < PhysicsVector.magnitude (⟨[2]⟩ : PhysicsVector 1) := by
    rw [hm2]; unfold dblEpsilon; norm_num
  exact ⟨⟨h0, (getUnitVector_guard 1 _).1 h0⟩,
    ⟨h2, (getUnitVector_guard 1 _).2 h2⟩⟩

/-- C6: for two bodies at exactly the same position the separation `r` is `0`;
the unit-vector step is epsilon-guarded and returns the zero vector, but the
inverse-square scaling divides by `r² = 0`, so in the checked embedding (where
a division by zero is a failure, as an IEEE division by zero is non-finite)
the acceleration is `none`. -/
theorem calcAcceleration_coincident (p q : Planet)
    (h : p.m_position = q.m_position) :
    (p.m_position.sub q.m_position).magnitude = 0 ∧
    (p.m_position.sub q.m_position).getUnitVector = PhysicsVector.mkZero 3 ∧
    p.calcAccelerationChecked q = none := by
  have hm : (p.m_position.sub q.m_position).magnitude = 0 :=
    magnitude_sub_self _ _ (by rw [h])
  refine ⟨hm, ?_, ?_⟩
  · unfold PhysicsVector.getUnitVector
    rw [hm]
    rw [if_pos (by unfold dblEpsilon; positivity)]
  · unfold Planet.calcAccelerationChecked
    rw [hm]
    norm_num

/-- Witness for C6 at a concrete coincident pair. -/
theorem calcAcceleration_coincident_witness :
    wCoinA.m_position = wCoinB.m_position ∧
    wCoinA.calcAccelerationChecked wCoinB = none :=
  ⟨rfl, (calcAcceleration_coincident wCoinA wCoinB rfl).2.2⟩

/-- C9: `getAt` (and its alias `at`) and `setAt` fail with an out-of-range
error for every index outside `[0, dim)` — the vector is untouched, the error
surfaces to the caller — and succeed for every index inside `[0, dim)`; the
named accessors and setters `x`, `y`, `z` are exactly indices 0, 1, 2 and so
fail under the same rule whenever `dim` is at or below the requested index. -/
theorem componentAccess_bounds (dim : ℕ) (_hdim : 1 ≤ dim)
    (v : PhysicsVector dim) (hlen : v.m_components.length = dim)
    (i : ℤ) (x : ℝ) :
    ((i < 0 ∨ (dim : ℤ) ≤ i) → v.getAt i = none ∧ v.setAt i x = none) ∧
    ((0 ≤ i ∧ i < (dim : ℤ)) →
      (∃ r, v.getAt i = some r) ∧ (∃ w, v.setAt i x = some w)) ∧
    v.atEntry i = v.getAt i ∧
    v.getX = v.getAt 0 ∧ v.getY = v.getAt 1 ∧ v.getZ = v.getAt 2 ∧
    v.setX x = v.setAt 0 x ∧ v.setY x = v.setAt 1 x ∧ v.setZ x = v.setAt 2 x := by
  have hcast : (v.m_components.length : ℤ) = (dim : ℤ) := by
    exact_mod_cast congrArg Nat.cast hlen
  refine ⟨?_, ?_, rfl, rfl, rfl, rfl, rfl, rfl, rfl⟩
  · intro h
    constructor
    · unfold PhysicsVector.getAt
      rw [if_neg]
      rw [hcast]
      omega
    · unfold PhysicsVector.setAt
      rw [if_pos]
      omega
  · rintro ⟨h1, h2⟩
    constructor
    · refine ⟨v.m_components.getD i.toNat 0, ?_⟩
      unfold PhysicsVector.getAt
      rw [if_pos]
      exact ⟨h1, by omega⟩
    · refine ⟨⟨v.m_components.set i.toNat x⟩, ?_⟩
      unfold PhysicsVector.setAt
      rw [if_neg]
      omega

/-- Witness for C9: a 3-vector rejects index 5 and accepts index 1. -/
theorem componentAccess_bounds_witness :
    (1 ≤ 3 ∧ (⟨[1, 2, 3]⟩ : PhysicsVector 3).m_components.length = 3) ∧
    (PhysicsVector.getAt (⟨[1, 2, 3]⟩ : PhysicsVector 3) 5 = none ∧
      PhysicsVector.setAt (⟨[1, 2, 3]⟩ : PhysicsVector 3) 5 7 = none) ∧
    ((∃ r, PhysicsVector.getAt (⟨[1, 2, 3]⟩ : PhysicsVector 3) 1 = some r) ∧
      ∃ w, PhysicsVector.setAt (⟨[1, 2, 3]⟩ : PhysicsVector 3) 1 7 = some w) :=
  ⟨⟨by norm_num, by simp⟩,
    (componentAccess_bounds 3 (by norm_num) _ (by simp) 5 7).1 (by norm_num),
    (componentAccess_bounds 3 (by norm_num) _ (by simp) 1 7).2.1 (by norm_num)⟩

/-- C2: `updateEuler` accumulates the acceleration, then advances the
position, then the velocity, so the new position is the pre-step position plus
the pre-step velocity times `dt` and the new velocity is the pre-step velocity
plus the newly accumulated acceleration times `dt`; `updateEulerCromer`
advances the velocity before the position, so the new position is the pre-step
position plus the already-advanced velocity times `dt`. -/
theorem update_scheme_order (self : Planet) (ps : List Planet)
    (selfIdx : Option ℕ) (dt : ℝ)
    (hp : self.m_position.m_components.length = 3)
    (hv : self.m_velocity.m_components.length = 3)
    (hps : ∀ p ∈ ps, p.m_position.m_components.length = 3) :
    (self.updateEuler ps selfIdx dt).m_position
      = self.m_position.add (self.m_velocity.scaledBy dt) ∧
    (self.updateEuler ps selfIdx dt).m_velocity
      = self.m_velocity.add ((self.sumAccelerations ps selfIdx).scaledBy dt) ∧
    (self.updateEulerCromer ps selfIdx dt).m_velocity
      = self.m_velocity.add ((self.sumAccelerations ps selfIdx).scaledBy dt) ∧
    (self.updateEulerCromer ps selfIdx dt).m_position
      = self.m_position.add
          ((self.m_velocity.add
            ((self.sumAccelerations ps selfIdx).scaledBy dt)).scaledBy dt) := by
  obtain ⟨p0, p1, p2, hp3⟩ := List.length_eq_three.mp hp
  obtain ⟨v0, v1, v2, hv3⟩ := List.length_eq_three.mp hv
  obtain ⟨a0, a1, a2, ha3⟩ :=
    List.length_eq_three.mp (length_sumAccelerations self ps selfIdx hp hps)
  refine ⟨?_, ?_, ?_, ?_⟩ <;>
    simp [Planet.updateEuler, Planet.updateEulerCromer,
      Planet.updateAccelerationEuler, Planet.updatePositionEuler,
      Planet.updateVelocityEuler, PhysicsVector.comp, PhysicsVector.fromList,
      PhysicsVector.add, PhysicsVector.scaledBy, PhysicsVector.scaleVector,
      hp3, hv3, ha3]

/-- Witness for C2 at a concrete body with an empty collection. -/
theorem update_scheme_order_witness :
    wSelf.m_position.m_components.length = 3 ∧
    wSelf.m_velocity.m_components.length = 3 ∧
    (wSelf.updateEuler [] none 2).m_position
      = wSelf.m_position.add (wSelf.m_velocity.scaledBy 2) ∧
    (wSelf.updateEulerCromer [] none 2).m_position
      = wSelf.m_position.add
          ((wSelf.m_velocity.add
            ((wSelf.sumAccelerations [] none).scaledBy 2)).scaledBy 2) :=
  ⟨by simp [wSelf], by simp [wSelf, PhysicsVector.mkZero],
    (update_scheme_order wSelf [] none 2 (by simp [wSelf])
      (by simp [wSelf, PhysicsVector.mkZero]) (by simp)).1,
    (update_scheme_order wSelf [] none 2 (by simp [wSelf])
      (by simp [wSelf, PhysicsVector.mkZero]) (by simp)).2.2.2⟩

/-- C5: `updateAccelerationEuler` stores as the body's acceleration the sum of
`calcAcceleration` over every element of the collection whose index differs
from the body's own index — the skip is decided purely by index (object
identity), never by value, so any element at another index belongs to the
summed list even when its fields equal the body's. -/
theorem updateAcceleration_identity_skip (self : Planet) (ps : List Planet)
    (i : ℕ) :
    (self.updateAccelerationEuler ps (some i)).m_acceleration
      = vecSum ((ps.enum.filter (fun x => x.1 ≠ i)).map
          (fun x => self.calcAcceleration x.2)) ∧
    (∀ j q, j ≠ i → ps[j]? = some q →
      (j, q) ∈ ps.enum.filter (fun x => x.1 ≠ i)) := by
  constructor
  · show self.sumAccelerations ps (some i) = _
    unfold Planet.sumAccelerations vecSum
    exact foldl_skip_eq_filter self i ps.enum _
  · intro j q hj hq
    rw [List.mem_filter]
    exact ⟨List.mk_mem_enum_iff_getElem?.mpr hq, by simpa using hj⟩

/-- Witness for C5: a collection holding the same body value twice; the
duplicate at index 1 is still part of the summed list when updating index 0. -/
theorem updateAcceleration_identity_skip_witness :
    (wCoinA.updateAccelerationEuler [wCoinA, wCoinA] (some 0)).m_acceleration
      = vecSum (([wCoinA, wCoinA].enum.filter (fun x => x.1 ≠ 0)).map
          (fun x => wCoinA.calcAcceleration x.2)) ∧
    ((1 : ℕ) ≠ 0 ∧ [wCoinA, wCoinA][1]? = some wCoinA) ∧
    (1, wCoinA) ∈ [wCoinA, wCoinA].enum.filter (fun x => x.1 ≠ 0) :=
  ⟨(updateAcceleration_identity_skip wCoinA [wCoinA, wCoinA] 0).1,
    ⟨by norm_num, by simp⟩,
    (updateAcceleration_identity_skip wCoinA [wCoinA, wCoinA] 0).2 1 wCoinA
      (by norm_num) (by simp)⟩

/-- C4: when the total mass is nonzero, subtracting `centreOfMass(bodies)`
from every body's position makes the centre of mass of the resulting
collection exactly the zero vector (exact real arithmetic). -/
theorem recentre_centreOfMass_zero (ps : List Planet)
    (hM : totalMass ps ≠ 0)
    (hps : ∀ p ∈ ps, p.m_position.m_components.length = 3) :
    centreOfMass (recentrePlanets ps) = PhysicsVector.mkZero 3 := by
  have hMs : totalMass ps = (ps.map (fun p => p.m_mass)).sum := by
    unfold totalMass
    rw [foldl_add_eq_sum, zero_add]
  have hCoM : (centreOfMass ps).m_components
      = [comSum 0 ps / totalMass ps, comSum 1 ps / totalMass ps,
          comSum 2 ps / totalMass ps] := by
    unfold centreOfMass
    rw [fromList_of_length (by simp)]
  have hkey : ∀ k, k < 3 → comSum k (recentrePlanets ps) = 0 := by
    intro k hk
    unfold comSum recentrePlanets
    rw [List.foldl_map, foldl_add_eq_sum, zero_add]
    have hpt : ∀ p ∈ ps,
        ({ p with m_position := p.m_position.sub (centreOfMass ps) } :
            Planet).m_position.comp k * p.m_mass
          = p.m_position.comp k * p.m_mass
            - (comSum k ps / totalMass ps) * p.m_mass := by
      intro p hp
      show (p.m_position.sub (centreOfMass ps)).comp k * p.m_mass = _
      obtain ⟨x, y, z, hxyz⟩ := List.length_eq_three.mp (hps p hp)
      have hsub : (p.m_position.sub (centreOfMass ps)).m_components
          = [x - comSum 0 ps / totalMass ps, y - comSum 1 ps / totalMass ps,
              z - comSum 2 ps / totalMass ps] := by
        unfold PhysicsVector.sub
        rw [hxyz, hCoM]
        simp
      interval_cases k <;> (simp [PhysicsVector.comp, hsub, hxyz]; ring)
    rw [List.map_congr_left hpt, sum_map_sub, sum_map_const_mul]
    have hck : (ps.map (fun p => p.m_position.comp k * p.m_mass)).sum
        = comSum k ps := by
      unfold comSum
      rw [foldl_add_eq_sum, zero_add]
    rw [hck, ← hMs, div_mul_cancel₀ _ hM, sub_self]
  show PhysicsVector.fromList 3
      [comSum 0 (recentrePlanets ps) / totalMass (recentrePlanets ps),
       comSum 1 (recentrePlanets ps) / totalMass (recentrePlanets ps),
       comSum 2 (recentrePlanets ps) / totalMass (recentrePlanets ps)]
    = PhysicsVector.mkZero 3
  rw [hkey 0 (by norm_num), hkey 1 (by norm_num), hkey 2 (by norm_num),
    zero_div]
  rw [fromList_of_length (by simp)]
  simp [PhysicsVector.mkZero]

/-- Witness for C4 at a concrete two-body collection of nonzero total mass. -/
theorem recentre_centreOfMass_zero_witness :
    totalMass [wCoinA, wCoinB] ≠ 0 ∧
    centreOfMass (recentrePlanets [wCoinA, wCoinB]) = PhysicsVector.mkZero 3 := by
  have hM : totalMass [wCoinA, wCoinB] ≠ 0 := by
    norm_num [totalMass, wCoinA, wCoinB]
  exact ⟨hM, recentre_centreOfMass_zero [wCoinA, wCoinB] hM
    (by intro p hp; fin_cases hp <;> simp [wCoinA, wCoinB])⟩

/-- C1 counterexample: the per-step update of the whole collection is NOT
computed from the pre-step snapshot and does depend on the interleaving of
force accumulation with the per-body advances.  For two equal bodies of mass
`10¹⁶/667408` at rest at `x = 0` and `x = 2` and `dt = 1`, the in-place loop
of `main` and the snapshot semantics asserted by the spec produce different
collections: the second body ends at `x = 82/49` (it sees the first body
already advanced to `x = 1/4`) instead of `x = 7/4`. -/
theorem stepAll_order_dependent :
    stepEulerCromerAll [ceBody0, ceBody1] 1
      ≠ stepEulerCromerSnapshot [ceBody0, ceBody1] 1 := by
  rw [stepLoop_two, snapshot_two, ce_u0, ce_u1, ce_snap1]
  intro h
  have h2 := congrArg
    (fun l => ((l.getD 1 dummyPlanet).m_position.m_components.getD 0 0)) h
  simp [List.getD] at h2
  norm_num at h2

/-- C1 (amended): one whole-collection step updates the bodies sequentially
in collection order; the body at index `k` is updated — its acceleration
accumulated, then velocity and position advanced — against the intermediate
collection in which the bodies at indices below `k` have already been
advanced for this step and the bodies at and above `k` have not. -/
theorem stepAll_sequential_characterisation (ps : List Planet) (dt : ℝ)
    (k : ℕ) (hk : k < ps.length) :
    (stepEulerCromerAll ps dt)[k]?
      = some (((stepLoop dt k 0 ps).getD k dummyPlanet).updateEulerCromer
          (stepLoop dt k 0 ps) (some k) dt) := by
  show (stepLoop dt ps.length 0 ps)[k]? = _
  have hkP : k < (stepLoop dt k 0 ps).length := by
    rw [stepLoop_length]
    exact hk
  rw [show ps.length = k + (1 + (ps.length - k - 1)) from by omega,
    stepLoop_add, Nat.zero_add,
    show 1 + (ps.length - k - 1) = ps.length - k - 1 + 1 from by omega]
  rw [stepLoop_succ, stepLoop_frozen dt _ _ _ k (by omega),
    List.getElem?_set_self', List.getElem?_eq_getElem hkP]
  rfl

/-- Witness for the amended C1 at a concrete two-body collection. -/
theorem stepAll_sequential_characterisation_witness :
    1 < ([dummyPlanet, dummyPlanet] : List Planet).length ∧
    (stepEulerCromerAll [dummyPlanet, dummyPlanet] 1)[1]?
      = some (((stepLoop 1 1 0 [dummyPlanet, dummyPlanet]).getD 1
          dummyPlanet).updateEulerCromer
            (stepLoop 1 1 0 [dummyPlanet, dummyPlanet]) (some 1) 1) :=
  ⟨by simp,
    stepAll_sequential_characterisation [dummyPlanet, dummyPlanet] 1 1
      (by simp)⟩

end
